import Mathlib

/-!
Verification model of the wallet service of this repository
(src/services/walletService.ts).  The service functions are embedded from
the source; the cryptographic primitives they call (bip39, bip32,
bitcoinjs-lib, secp256k1) are external dependencies whose internals are
not part of the repository, so they are modelled from the spec as an
abstract capability record of pure (deterministic) functions, which is
exactly the determinism the spec ascribes to them.  JavaScript runtime
semantics needed by the source (JSON.parse / JSON.stringify, property
access, truthiness, ToNumber coercion and division) are modelled
explicitly below.
-/

namespace WalletService

/-- JavaScript values produced by JSON.parse.  Numbers are modelled as
exact rationals (IEEE-754 rounding is not modelled; no claim below
depends on rounding).  Strings are modelled as sequences of Unicode
scalar values, as in Lean. -/
inductive Json where
  | null : Json
  | bool (b : Bool) : Json
  | num (q : ℚ) : Json
  | str (s : String) : Json
  | arr (elems : List Json) : Json
  | obj (fields : List (String × Json)) : Json

/-- JavaScript numbers as far as the arithmetic of the service needs them:
NaN, the two infinities, and finite values (exact rationals; the sign of
zero is not modelled, which no claim below depends on). -/
inductive JsNumber where
  | nan : JsNumber
  | inf : JsNumber
  | negInf : JsNumber
  | ofRat (q : ℚ) : JsNumber
  deriving DecidableEq

/-- The Wallet record of src/services/walletService.ts (interface Wallet). -/
structure Wallet where
  mnemonic : String
  privateKey : String
  publicKey : String
  address : String
  wif : String
  deriving DecidableEq

/-- Errors of the persistence layer (AsyncStorage rejections). -/
inductive StorageError where
  | writeError : StorageError
  | removeError : StorageError
  deriving DecidableEq

/-- Errors surfaced by wallet creation / import: the explicit
"Invalid mnemonic phrase" throw, or a propagated storage failure. -/
inductive WalletError where
  | invalidMnemonic : WalletError
  | storage (e : StorageError) : WalletError
  deriving DecidableEq

/-- The world a service call runs in: the single AsyncStorage slot under
WALLET_STORAGE_KEY, the mnemonic the CSPRNG-backed bip39.generateMnemonic
would produce in this world, and fault flags telling whether the next
storage read / write / remove rejects. -/
structure World where
  slot : Option String
  entropyMnemonic : String
  writeFault : Bool
  readFault : Bool
  removeFault : Bool

/-- Outcome of a fetch call: a transport-level rejection, or an HTTP
response with its ok flag (status in the 2xx range) and body text. -/
inductive FetchOutcome where
  | netError : FetchOutcome
  | response (ok : Bool) (body : String) : FetchOutcome

/-- A BIP32 node as the source consumes it: the derived private key and
compressed public key bytes (chain code and the rest of the node are not
read by the service). -/
structure BIP32Node where
  privateKey : List Nat
  publicKey : List Nat

/-- Modelled from the spec: the deterministic cryptographic capabilities
the service imports (bip39, bip32, bitcoinjs-lib over secp256k1).  Their
implementations live in external packages, not in src/, so they are
abstracted as pure functions, which is the determinism the spec states
("Deterministic: same mnemonic+passphrase always yields the same seed";
privateKey -> publicKey -> address are one-directional deterministic
functions). -/
structure CryptoEnv where
  inWordlist : String → Bool
  checksumOk : String → Bool
  mnemonicToSeed : String → List Nat
  fromSeed : List Nat → BIP32Node
  derivePath : BIP32Node → String → BIP32Node
  p2pkh : List Nat → String
  toWIF : List Nat → String

/-- JavaScript String.prototype.split(" "): splits on every single
space, keeping empty fragments (so "".split(" ") is [""]). -/
def splitWordsAux : List Char → List Char → List String
  | [], acc => [String.mk acc.reverse]
  | c :: cs, acc =>
    if c = ' ' then String.mk acc.reverse :: splitWordsAux cs []
    else splitWordsAux cs (c :: acc)

/-- mnemonic.split(" ") as bip39 performs it. -/
def splitWords (m : String) : List String :=
  splitWordsAux m.data []

/-- Modelled from the spec: bip39.validateMnemonic (code of the bip39
dependency, not under src/).  Per spec section 4.1: every word must be in
the fixed word list, the recomputed checksum must match, and the word
count must be 12 for this system.  Word-list membership and the SHA-256
checksum are the abstract capabilities of the environment. -/
def validateMnemonic (env : CryptoEnv) (m : String) : Bool :=
  let ws := splitWords m
  ws.length == 12 && ws.all env.inWordlist && env.checksumOk m

/-- Buffer.toString("hex"): lowercase hex digit for a value below 16. -/
def hexDigitChar (n : Nat) : Char :=
  if n < 10 then Char.ofNat (48 + n) else Char.ofNat (87 + n)

/-- Buffer.toString("hex") on a byte sequence. -/
def bytesToHex (bs : List Nat) : String :=
  String.mk (bs.foldr
    (fun b acc => hexDigitChar (b % 256 / 16) :: hexDigitChar (b % 16) :: acc) [])

/-! JSON.stringify, restricted to what the source serializes: the string
escaping of the ECMAScript QuoteJSONString algorithm. -/

/-- The escape JSON.stringify emits for one character: backslash escapes
for quote, backslash and the named control characters, a \u00xx escape
for the remaining control characters, the character itself otherwise. -/
def escChar (c : Char) : List Char :=
  if c = '"' then ['\\', '"']
  else if c = '\\' then ['\\', '\\']
  else if c = '\x08' then ['\\', 'b']
  else if c = '\x09' then ['\\', 't']
  else if c = '\x0a' then ['\\', 'n']
  else if c = '\x0c' then ['\\', 'f']
  else if c = '\x0d' then ['\\', 'r']
  else if c.toNat < 32 then
    ['\\', 'u', '0', '0', hexDigitChar (c.toNat / 16), hexDigitChar (c.toNat % 16)]
  else [c]

/-- JSON.stringify string escaping over a character sequence. -/
def escList (s : List Char) : List Char :=
  s.foldr (fun c acc => escChar c ++ acc) []

/-- The serialized form of one string value, quotes included. -/
def quoteChars (s : String) : List Char :=
  '"' :: escList s.data ++ ['"']

/-- One member of the serialized wallet object: "key":"value". -/
def memberChars (k : String) (v : String) : List Char :=
  '"' :: k.data ++ '"' :: ':' :: quoteChars v

/-- JSON.stringify(wallet) as the source stores it: the five string
fields in object-literal insertion order, no added whitespace. -/
def stringifyWalletChars (w : Wallet) : List Char :=
  '\x7b' :: (memberChars ("mnemonic") w.mnemonic ++
    ',' :: memberChars ("privateKey") w.privateKey ++
    ',' :: memberChars ("publicKey") w.publicKey ++
    ',' :: memberChars ("address") w.address ++
    ',' :: memberChars ("wif") w.wif ++ ['\x7d'])

/-- JSON.stringify(wallet) as a string. -/
def stringifyWallet (w : Wallet) : String :=
  String.mk (stringifyWalletChars w)

/-! JSON.parse, modelled on the ECMAScript / RFC 8259 JSON grammar. -/

/-- JSON insignificant whitespace. -/
def isWsChar (c : Char) : Bool :=
  c = ' ' || c = '\x09' || c = '\x0a' || c = '\x0d'

/-- Skip insignificant whitespace. -/
def skipWs : List Char → List Char
  | [] => []
  | c :: cs => if isWsChar c then skipWs cs else c :: cs

/-- Value of one hex digit, as in a \uXXXX escape. -/
def hexVal (c : Char) : Option Nat :=
  if 48 ≤ c.toNat ∧ c.toNat ≤ 57 then some (c.toNat - 48)
  else if 97 ≤ c.toNat ∧ c.toNat ≤ 102 then some (c.toNat - 87)
  else if 65 ≤ c.toNat ∧ c.toNat ≤ 70 then some (c.toNat - 55)
  else none

/-- The single-character JSON string escapes. -/
def simpleEsc (e : Char) : Option Char :=
  if e = '"' then some '"'
  else if e = '\\' then some '\\'
  else if e = '/' then some '/'
  else if e = 'b' then some '\x08'
  else if e = 'f' then some '\x0c'
  else if e = 'n' then some '\x0a'
  else if e = 'r' then some '\x0d'
  else if e = 't' then some '\x09'
  else none

/-- Prepend a character to the first component of a parse result. -/
def consFst (c : Char) (p : List Char × List Char) : List Char × List Char :=
  (c :: p.1, p.2)

/-- Parse the body of a JSON string after its opening quote, returning
the decoded characters and the input after the closing quote.  Every
\uXXXX escape yields one character; an escaped surrogate code unit -
representable in a JavaScript string but not as a Unicode scalar value,
hence not as a Lean character - is modelled as U+FFFD.  (The serializer
below never emits surrogate escapes, so no claim depends on them.) -/
def parseStrAux : List Char → Option (List Char × List Char)
  | [] => none
  | '"' :: rest => some ([], rest)
  | '\\' :: 'u' :: h1 :: h2 :: h3 :: h4 :: rest =>
    match hexVal h1, hexVal h2, hexVal h3, hexVal h4 with
    | some a, some b, some c1, some d =>
      let code := ((a * 16 + b) * 16 + c1) * 16 + d
      if 55296 ≤ code ∧ code ≤ 57343 then
        Option.map (consFst (Char.ofNat 65533)) (parseStrAux rest)
      else Option.map (consFst (Char.ofNat code)) (parseStrAux rest)
    | _, _, _, _ => none
  | '\\' :: e :: rest =>
    match simpleEsc e with
    | some c2 => Option.map (consFst c2) (parseStrAux rest)
    | none => none
  | '\\' :: [] => none
  | c :: rest =>
    if c.toNat < 32 then none else Option.map (consFst c) (parseStrAux rest)

/-- Leading decimal digits of the input, and the rest. -/
def takeDigits : List Char → List Char × List Char
  | [] => ([], [])
  | c :: cs =>
    if 48 ≤ c.toNat ∧ c.toNat ≤ 57 then
      let p := takeDigits cs
      (c :: p.1, p.2)
    else ([], c :: cs)

/-- Numeric value of a digit sequence. -/
def digitsVal (ds : List Char) : Nat :=
  ds.foldl (fun acc c => acc * 10 + (c.toNat - 48)) 0

/-- Parse a JSON number: optional minus sign, integer part without
superfluous leading zeros, optional fraction, optional exponent.  The
value is kept as an exact rational. -/
def parseNum (cs : List Char) : Option (Json × List Char) :=
  let signed := match cs with
    | '-' :: t => (true, t)
    | _ => (false, cs)
  let ip := takeDigits signed.2
  match ip.1 with
  | [] => none
  | d0 :: ds0 =>
    if d0 = '0' ∧ ds0 ≠ [] then none
    else
      let fp := match ip.2 with
        | '.' :: t =>
          let f := takeDigits t
          if f.1 = [] then none else some (f.1, f.2)
        | _ => some ([], ip.2)
      match fp with
      | none => none
      | some (fds, rest1) =>
        let ep := match rest1 with
          | 'e' :: t => some t
          | 'E' :: t => some t
          | _ => none
        match ep with
        | none =>
          let base : ℚ := (digitsVal ip.1 : ℚ) +
            (digitsVal fds : ℚ) / ((10 : ℚ) ^ fds.length)
          some (.num (if signed.1 then -base else base), rest1)
        | some t1 =>
          let esigned := match t1 with
            | '+' :: t => (false, t)
            | '-' :: t => (true, t)
            | _ => (false, t1)
          let eds := takeDigits esigned.2
          match eds.1 with
          | [] => none
          | _ :: _ =>
            let base : ℚ := (digitsVal ip.1 : ℚ) +
              (digitsVal fds : ℚ) / ((10 : ℚ) ^ fds.length)
            let scaled : ℚ :=
              if esigned.1 then base / ((10 : ℚ) ^ digitsVal eds.1)
              else base * ((10 : ℚ) ^ digitsVal eds.1)
            some (.num (if signed.1 then -scaled else scaled), eds.2)

mutual

/-- Parse a JSON value / the members of an object / the elements of an
array.  The first argument is fuel, strictly decreased on every
recursive call; the top-level entry point supplies input length + 1,
which always suffices because every recursive call follows the
consumption of at least one character. -/
def parseValue : Nat → List Char → Option (Json × List Char)
  | 0, _ => none
  | n + 1, cs =>
    match cs with
    | [] => none
    | c :: rest =>
      if c = 'n' then
        match rest with
        | 'u' :: 'l' :: 'l' :: r => some (.null, r)
        | _ => none
      else if c = 't' then
        match rest with
        | 'r' :: 'u' :: 'e' :: r => some (.bool true, r)
        | _ => none
      else if c = 'f' then
        match rest with
        | 'a' :: 'l' :: 's' :: 'e' :: r => some (.bool false, r)
        | _ => none
      else if c = '"' then
        Option.map (fun p => (Json.str (String.mk p.1), p.2)) (parseStrAux rest)
      else if c = '[' then
        match skipWs rest with
        | ']' :: r => some (.arr [], r)
        | r1 => Option.map (fun p => (Json.arr p.1, p.2)) (parseElems n r1)
      else if c = '\x7b' then
        match skipWs rest with
        | '\x7d' :: r => some (.obj [], r)
        | r1 => Option.map (fun p => (Json.obj p.1, p.2)) (parseMembers n r1)
      else parseNum cs

/-- Elements of a non-empty JSON array, positioned at the first element. -/
def parseElems : Nat → List Char → Option (List Json × List Char)
  | 0, _ => none
  | n + 1, cs =>
    match parseValue n (skipWs cs) with
    | none => none
    | some (v, r1) =>
      match skipWs r1 with
      | ',' :: r2 => Option.map (fun p => (v :: p.1, p.2)) (parseElems n r2)
      | ']' :: r2 => some ([v], r2)
      | _ => none

/-- Members of a non-empty JSON object, positioned at the first key. -/
def parseMembers : Nat → List Char → Option (List (String × Json) × List Char)
  | 0, _ => none
  | n + 1, cs =>
    match cs with
    | '"' :: rest =>
      match parseStrAux rest with
      | none => none
      | some (k, r1) =>
        match skipWs r1 with
        | ':' :: r2 =>
          match parseValue n (skipWs r2) with
          | none => none
          | some (v, r3) =>
            match skipWs r3 with
            | ',' :: r4 =>
              Option.map (fun p => ((String.mk k, v) :: p.1, p.2))
                (parseMembers n (skipWs r4))
            | '\x7d' :: r4 => some ([(String.mk k, v)], r4)
            | _ => none
        | _ => none
    | _ => none

end

/-- JSON.parse: parse one value surrounded by whitespace; any leftover
input or any lexical error is a SyntaxError, modelled as none. -/
def jsonParse (s : String) : Option Json :=
  match parseValue (s.data.length + 1) (skipWs s.data) with
  | some (v, r) => if skipWs r = [] then some v else none
  | none => none

/-! JavaScript expression semantics used by the service: property
access, truthiness, ToNumber coercion, division. -/

/-- Property lookup in a parsed JSON object; with duplicate keys the
last binding wins, as in JavaScript. -/
def lastAssoc (fs : List (String × Json)) (k : String) : Option Json :=
  match fs with
  | [] => none
  | (k1, v1) :: rest =>
    match lastAssoc rest k with
    | some v => some v
    | none => if k1 = k then some v1 else none

/-- data.f in JavaScript: reading a property of null throws a TypeError
(error case); on a primitive, an array or an object without the key the
result is undefined (ok none). -/
def jsGetField (v : Json) (k : String) : Except Unit (Option Json) :=
  match v with
  | .null => .error ()
  | .obj fs => .ok (lastAssoc fs k)
  | _ => .ok none

/-- JavaScript truthiness of a parsed JSON value (note that an empty
array and an empty object are truthy). -/
def jsTruthy (v : Json) : Bool :=
  match v with
  | .null => false
  | .bool b => b
  | .num q => q != 0
  | .str s => s != ""
  | .arr _ => true
  | .obj _ => true

/-- The whitespace String-to-number trimming of JavaScript ToNumber
(the common whitespace code points). -/
def isJsWs (c : Char) : Bool :=
  c = ' ' || (9 ≤ c.toNat && c.toNat ≤ 13) || c.toNat = 160 ||
    c.toNat = 65279 || c.toNat = 8232 || c.toNat = 8233

/-- Drop leading JavaScript whitespace. -/
def dropJsWs : List Char → List Char
  | [] => []
  | c :: cs => if isJsWs c then dropJsWs cs else c :: cs

/-- Trim JavaScript whitespace at both ends. -/
def trimJs (cs : List Char) : List Char :=
  ((dropJsWs ((dropJsWs cs).reverse)).reverse)

/-- Digit value in a given radix (radix at most 16). -/
def radixDigitVal (r : Nat) (c : Char) : Option Nat :=
  match hexVal c with
  | some v => if v < r then some v else none
  | none => none

/-- Value of a non-empty all-digit sequence in a given radix. -/
def radixDigits (r : Nat) (cs : List Char) : Option Nat :=
  match cs with
  | [] => none
  | _ =>
    cs.foldl
      (fun acc c =>
        match acc, radixDigitVal r c with
        | some a, some v => some (a * r + v)
        | _, _ => none)
      (some 0)

/-- A trailing StrDecimalLiteral (after any sign): digits with optional
fraction and optional exponent, consuming the whole input. -/
def decTail (cs : List Char) : Option ℚ :=
  let ip := takeDigits cs
  let fparts := match ip.2 with
    | '.' :: t =>
      let f := takeDigits t
      (f.1, f.2)
    | _ => ([], ip.2)
  if ip.1 = [] ∧ fparts.1 = [] then none
  else
    let base : ℚ := (digitsVal ip.1 : ℚ) +
      (digitsVal fparts.1 : ℚ) / ((10 : ℚ) ^ fparts.1.length)
    match fparts.2 with
    | [] => some base
    | 'e' :: t =>
      match (match t with
        | '+' :: t2 => some (false, t2)
        | '-' :: t2 => some (true, t2)
        | _ => some (false, t)) with
      | some (eneg, t2) =>
        let eds := takeDigits t2
        if eds.1 = [] ∨ eds.2 ≠ [] then none
        else some (if eneg then base / ((10 : ℚ) ^ digitsVal eds.1)
          else base * ((10 : ℚ) ^ digitsVal eds.1))
      | none => none
    | 'E' :: t =>
      match (match t with
        | '+' :: t2 => some (false, t2)
        | '-' :: t2 => some (true, t2)
        | _ => some (false, t)) with
      | some (eneg, t2) =>
        let eds := takeDigits t2
        if eds.1 = [] ∨ eds.2 ≠ [] then none
        else some (if eneg then base / ((10 : ℚ) ^ digitsVal eds.1)
          else base * ((10 : ℚ) ^ digitsVal eds.1))
      | none => none
    | _ => none

/-- A signed decimal literal or Infinity, consuming the whole input. -/
def decOrInf (t : List Char) (neg : Bool) : JsNumber :=
  if t = ['I', 'n', 'f', 'i', 'n', 'i', 't', 'y'] then
    if neg then .negInf else .inf
  else
    match decTail t with
    | some q => .ofRat (if neg then -q else q)
    | none => .nan

/-- JavaScript Number(string): trim, empty means zero, unsigned radix
literals, otherwise an optionally signed decimal literal or Infinity;
anything else is NaN. -/
def strToNumber (s : String) : JsNumber :=
  match trimJs s.data with
  | [] => .ofRat 0
  | '0' :: 'x' :: t => match radixDigits 16 t with
    | some n => .ofRat n
    | none => .nan
  | '0' :: 'X' :: t => match radixDigits 16 t with
    | some n => .ofRat n
    | none => .nan
  | '0' :: 'o' :: t => match radixDigits 8 t with
    | some n => .ofRat n
    | none => .nan
  | '0' :: 'O' :: t => match radixDigits 8 t with
    | some n => .ofRat n
    | none => .nan
  | '0' :: 'b' :: t => match radixDigits 2 t with
    | some n => .ofRat n
    | none => .nan
  | '0' :: 'B' :: t => match radixDigits 2 t with
    | some n => .ofRat n
    | none => .nan
  | '+' :: t => decOrInf t false
  | '-' :: t => decOrInf t true
  | t => decOrInf t false

/-- JavaScript ToNumber on a parsed JSON value.  Arrays coerce through
their string form: the empty array to 0, a one-element array to the
coercion of its element (booleans and objects stringify to non-numeric
text, hence NaN), longer arrays always contain a comma, hence NaN. -/
def jsonToNumber (v : Json) : JsNumber :=
  match v with
  | .null => .ofRat 0
  | .bool b => .ofRat (if b then 1 else 0)
  | .num q => .ofRat q
  | .str s => strToNumber s
  | .arr [] => .ofRat 0
  | .arr [x] =>
    match x with
    | .bool _ => .nan
    | .obj _ => .nan
    | y => jsonToNumber y
  | .arr (_ :: _ :: _) => .nan
  | .obj _ => .nan

/-- JavaScript ToNumber where the value may also be undefined (none). -/
def toNumber (v : Option Json) : JsNumber :=
  match v with
  | none => .nan
  | some j => jsonToNumber j

/-- JavaScript division on numbers (the sign of zero is not modelled:
division of a finite value by an infinity yields plain 0, and division
by zero of either sign yields the infinity determined by the sign of the
numerator). -/
def JsNumber.div : JsNumber → JsNumber → JsNumber
  | .nan, _ => .nan
  | _, .nan => .nan
  | .inf, .inf => .nan
  | .inf, .negInf => .nan
  | .negInf, .inf => .nan
  | .negInf, .negInf => .nan
  | .inf, .ofRat q => if q < 0 then .negInf else .inf
  | .negInf, .ofRat q => if q < 0 then .inf else .negInf
  | .ofRat _, .inf => .ofRat 0
  | .ofRat _, .negInf => .ofRat 0
  | .ofRat a, .ofRat b =>
    if b = 0 then
      if a = 0 then .nan else if 0 < a then .inf else .negInf
    else .ofRat (a / b)

/-! The service functions of src/services/walletService.ts.  Storage and
network are the only effects; a call is modelled as a function of the
world (and, for fetch-backed calls, of the fetch outcome).  A rejected
AsyncStorage operation is modelled as leaving the stored value
unchanged: the single setItem call is atomic per key. -/

/-- saveWallet (lines 226-233): AsyncStorage.setItem of
JSON.stringify(wallet) under the fixed key; on failure the error is
logged and rethrown, so it propagates. -/
def saveWallet (wallet : Wallet) (w : World) : Except StorageError Unit × World :=
  if w.writeFault then (.error .writeError, w)
  else (.ok (), { w with slot := some (stringifyWallet wallet) })

/-- generateWallet (lines 86-128): generate a mnemonic, derive the seed,
the BIP32 root, the account at m/44h/0h/0h/0/0, the key pair, the P2PKH
address and the WIF; assemble the Wallet in memory; then save it.  The
generated mnemonic is the one the entropy source of the world yields. -/
def generateWallet (env : CryptoEnv) (w : World) :
    Except WalletError Wallet × World :=
  let mnemonic := w.entropyMnemonic
  let seed := env.mnemonicToSeed mnemonic
  let root := env.fromSeed seed
  let path : String := "m/44\x27/0\x27/0\x27/0/0"
  let account := env.derivePath root path
  let privateKey := account.privateKey
  let publicKey := account.publicKey
  let address := env.p2pkh publicKey
  let wif := env.toWIF privateKey
  let wallet : Wallet :=
    { mnemonic := mnemonic
      privateKey := bytesToHex privateKey
      publicKey := bytesToHex publicKey
      address := address
      wif := wif }
  match saveWallet wallet w with
  | (.error e, w1) => (.error (.storage e), w1)
  | (.ok _, w1) => (.ok wallet, w1)

/-- importWalletFromMnemonic (lines 133-176): reject an invalid
mnemonic with the "Invalid mnemonic phrase" error, otherwise run the
same derivation pipeline as generateWallet and save the result. -/
def importWalletFromMnemonic (env : CryptoEnv) (mnemonic : String) (w : World) :
    Except WalletError Wallet × World :=
  if !(validateMnemonic env mnemonic) then (.error .invalidMnemonic, w)
  else
    let seed := env.mnemonicToSeed mnemonic
    let root := env.fromSeed seed
    let path : String := "m/44\x27/0\x27/0\x27/0/0"
    let account := env.derivePath root path
    let privateKey := account.privateKey
    let publicKey := account.publicKey
    let address := env.p2pkh publicKey
    let wif := env.toWIF privateKey
    let wallet : Wallet :=
      { mnemonic := mnemonic
        privateKey := bytesToHex privateKey
        publicKey := bytesToHex publicKey
        address := address
        wif := wif }
    match saveWallet wallet w with
    | (.error e, w1) => (.error (.storage e), w1)
    | (.ok _, w1) => (.ok wallet, w1)

/-- getWalletBalance (lines 181-200): fetch the balance URL; inside the
try block a transport rejection, a non-ok response or a body that fails
to parse as JSON all throw, are caught, logged, and turn into 0.
Otherwise the call returns data.balance / 100000000 - with no check
that a balance field exists or is numeric. -/
def getWalletBalance (address : String) (r : FetchOutcome) : JsNumber :=
  let _url : String :=
    "https://api.blockcypher.com/v1/btc/test3/addrs/" ++ address ++ "/balance"
  match r with
  | .netError => .ofRat 0
  | .response ok body =>
    if !ok then .ofRat 0
    else
      match jsonParse body with
      | none => .ofRat 0
      | some data =>
        match jsGetField data ("balance") with
        | .error _ => .ofRat 0
        | .ok f => JsNumber.div (toNumber f) (.ofRat 100000000)

/-- getTransactionHistory (lines 205-221): fetch the full-transactions
URL with limit=10 in the query string; any throw inside the try block is
caught and turns into the empty array; otherwise the call returns
data.txs || [] - the txs value itself whenever it is truthy, with no
client-side cap on its length. -/
def getTransactionHistory (address : String) (r : FetchOutcome) : Json :=
  let _url : String :=
    "https://api.blockcypher.com/v1/btc/test3/addrs/" ++ address ++
      "/full?limit=10"
  match r with
  | .netError => .arr []
  | .response ok body =>
    if !ok then .arr []
    else
      match jsonParse body with
      | none => .arr []
      | some data =>
        match jsGetField data ("txs") with
        | .error _ => .arr []
        | .ok none => .arr []
        | .ok (some v) => if jsTruthy v then v else .arr []

/-- loadWallet (lines 238-249): AsyncStorage.getItem; a read failure or
a JSON.parse throw is caught and turns into null; an absent key or an
empty string (falsy) returns null; otherwise the parsed value is
returned as-is, without validating that it is a Wallet record. -/
def loadWallet (w : World) : Json :=
  if w.readFault then .null
  else
    match w.slot with
    | none => .null
    | some s =>
      if s = "" then .null
      else
        match jsonParse s with
        | some v => v
        | none => .null

/-- deleteWallet (lines 254-261): AsyncStorage.removeItem of the fixed
key; on failure the error is logged and rethrown; removing an absent key
succeeds. -/
def deleteWallet (w : World) : Except StorageError Unit × World :=
  if w.removeFault then (.error .removeError, w)
  else (.ok (), { w with slot := none })

/-- Field extraction used to state the round-trip claims: a JavaScript
value is a Wallet record when it is an object carrying the five string
fields. -/
def decodeWallet (j : Json) : Option Wallet :=
  match j with
  | .obj fs =>
    match lastAssoc fs ("mnemonic"), lastAssoc fs ("privateKey"),
        lastAssoc fs ("publicKey"), lastAssoc fs ("address"),
        lastAssoc fs ("wif") with
    | some (.str m), some (.str pk), some (.str pb), some (.str ad),
        some (.str wf) =>
      some ⟨m, pk, pb, ad, wf⟩
    | _, _, _, _, _ => none
  | _ => none

/-- The JSON object value the serialized wallet denotes. -/
def walletJson (w : Wallet) : Json :=
  .obj [(("mnemonic"), .str w.mnemonic), (("privateKey"), .str w.privateKey),
    (("publicKey"), .str w.publicKey), (("address"), .str w.address),
    (("wif"), .str w.wif)]

/-- The atomicity contract of wallet creation with respect to the single
storage slot: on failure the previously stored record is untouched; on
success the slot holds exactly the serialization of the complete
returned Wallet (the only write ever issued). -/
def atomicOutcome (w0 : World) (p : Except WalletError Wallet × World) : Prop :=
  match p.1 with
  | .error _ => p.2.slot = w0.slot
  | .ok wlt => p.2.slot = some (stringifyWallet wlt)

/-! Concrete environments and worlds used by the witnesses. -/

/-- A world with empty storage and no faults. -/
def baseWorld : World := ⟨none, "", false, false, false⟩

/-- A concrete crypto environment for evaluating the theorems: every
word is accepted, every checksum passes, and the derivation pipeline is
a small computable stand-in. -/
def testEnv : CryptoEnv :=
  ⟨fun _ => true, fun _ => true, fun m => [m.length % 256],
   fun s => ⟨s, s⟩, fun n _ => n, fun bs => bytesToHex bs,
   fun bs => bytesToHex bs⟩

/-- A 12-word mnemonic. -/
def m12c : String := "a a a a a a a a a a a a"

/-- A 24-word mnemonic every word of which testEnv accepts. -/
def m24c : String := "a a a a a a a a a a a a a a a a a a a a a a a a"

/-- The eleven-transaction payload refuting the client-side cap. -/
def elevenTxBody : String :=
  "\x7b\"txs\":[null,null,null,null,null,null,null,null,null,null,null]\x7d"

/-! Round-trip lemmas: JSON.parse inverts JSON.stringify on the wallet
record, for every Wallet value. -/

theorem strMkData (s : String) : String.mk s.data = s := by
  cases s
  rfl

theorem skipWs_cons (c : Char) (cs : List Char) (h : isWsChar c = false) :
    skipWs (c :: cs) = c :: cs := by
  simp [skipWs, h]

theorem parseValue_str_eq (n : Nat) (rest : List Char) :
    parseValue (n + 1) ('"' :: rest) =
      Option.map (fun p => (Json.str (String.mk p.1), p.2))
        (parseStrAux rest) := rfl

theorem parseValue_obj_q (n : Nat) (r : List Char) :
    parseValue (n + 1) ('\x7b' :: '"' :: r) =
      Option.map (fun p => (Json.obj p.1, p.2)) (parseMembers n ('"' :: r)) := rfl

theorem parseMembers_eq (n : Nat) (rest : List Char) :
    parseMembers (n + 1) ('"' :: rest) =
      (match parseStrAux rest with
       | none => none
       | some (k, r1) =>
         match skipWs r1 with
         | ':' :: r2 =>
           match parseValue n (skipWs r2) with
           | none => none
           | some (v, r3) =>
             match skipWs r3 with
             | ',' :: r4 =>
               Option.map (fun p => ((String.mk k, v) :: p.1, p.2))
                 (parseMembers n (skipWs r4))
             | '\x7d' :: r4 => some ([(String.mk k, v)], r4)
             | _ => none
         | _ => none) := rfl

theorem hexVal_hexDigitChar :
    ∀ i : Fin 16, hexVal (hexDigitChar i.val) = some i.val := by decide

theorem parseStrAux_u00 (h3 h4 : Char) (rest : List Char) (a b : Nat)
    (ha : hexVal h3 = some a) (hb : hexVal h4 = some b)
    (hab : a * 16 + b < 55296) :
    parseStrAux ('\\' :: 'u' :: '0' :: '0' :: h3 :: h4 :: rest) =
      Option.map (consFst (Char.ofNat (a * 16 + b))) (parseStrAux rest) := by
  have h0 : hexVal '0' = some 0 := rfl
  simp only [parseStrAux, h0, ha, hb]
  have harith : ((0 * 16 + 0) * 16 + a) * 16 + b = a * 16 + b := by ring
  simp only [harith]
  rw [if_neg (by omega)]

theorem parseStrAux_plain (c : Char) (tail : List Char) (n1 : c ≠ '"')
    (n2 : c ≠ '\\') (n3 : ¬ c.toNat < 32) :
    parseStrAux (c :: tail) = Option.map (consFst c) (parseStrAux tail) := by
  rw [parseStrAux.eq_def]
  split <;> simp_all

theorem parseStrAux_escChar (c : Char) (tail : List Char) :
    parseStrAux (escChar c ++ tail) = Option.map (consFst c) (parseStrAux tail) := by
  by_cases h1 : c = '"'
  · subst h1; rfl
  by_cases h2 : c = '\\'
  · subst h2; rfl
  by_cases h3 : c = '\x08'
  · subst h3; rfl
  by_cases h4 : c = '\x09'
  · subst h4; rfl
  by_cases h5 : c = '\x0a'
  · subst h5; rfl
  by_cases h6 : c = '\x0c'
  · subst h6; rfl
  by_cases h7 : c = '\x0d'
  · subst h7; rfl
  by_cases h9 : c.toNat < 32
  · have e1 : escChar c =
        ['\\', 'u', '0', '0', hexDigitChar (c.toNat / 16),
          hexDigitChar (c.toNat % 16)] := by
      unfold escChar
      simp [h1, h2, h3, h4, h5, h6, h7, h9]
    rw [e1]
    simp only [List.cons_append, List.nil_append]
    have hd1 : hexVal (hexDigitChar (c.toNat / 16)) = some (c.toNat / 16) :=
      hexVal_hexDigitChar ⟨c.toNat / 16, by omega⟩
    have hd2 : hexVal (hexDigitChar (c.toNat % 16)) = some (c.toNat % 16) :=
      hexVal_hexDigitChar ⟨c.toNat % 16, by omega⟩
    rw [parseStrAux_u00 _ _ tail _ _ hd1 hd2 (by omega)]
    have : c.toNat / 16 * 16 + c.toNat % 16 = c.toNat := by omega
    rw [this, Char.ofNat_toNat]
  · have e1 : escChar c = [c] := by
      unfold escChar
      simp [h1, h2, h3, h4, h5, h6, h7, h9]
    rw [e1]
    simp only [List.cons_append, List.nil_append]
    exact parseStrAux_plain c tail h1 h2 h9

theorem parseStrAux_escList (s : List Char) (rest : List Char) :
    parseStrAux (escList s ++ '"' :: rest) = some (s, rest) := by
  induction s with
  | nil => rfl
  | cons c t ih =>
    have e : escList (c :: t) = escChar c ++ escList t := rfl
    rw [e, List.append_assoc, parseStrAux_escChar, ih]
    rfl

theorem parseValue_quoted (n : Nat) (v : String) (rest : List Char) :
    parseValue (n + 1) ('"' :: (escList v.data ++ '"' :: rest)) =
      some (.str v, rest) := by
  rw [parseValue_str_eq, parseStrAux_escList]
  simp [strMkData]

theorem parseMembers_member (n : Nat) (kd : List Char) (v : String)
    (hk : escList kd = kd) (rest : List Char) :
    parseMembers (n + 2)
        ('"' :: (kd ++ '"' :: ':' :: '"' :: (escList v.data ++ '"' :: rest))) =
      (match skipWs rest with
       | ',' :: r4 =>
         Option.map (fun p => ((String.mk kd, Json.str v) :: p.1, p.2))
           (parseMembers (n + 1) (skipWs r4))
       | '\x7d' :: r4 => some ([(String.mk kd, Json.str v)], r4)
       | _ => none) := by
  have f2 : n + 2 = (n + 1) + 1 := rfl
  rw [f2, parseMembers_eq]
  conv in kd ++ _ => rw [← hk]
  simp only [parseStrAux_escList]
  simp only [skipWs_cons ':' _ rfl]
  simp only [skipWs_cons '"' _ rfl, parseValue_quoted]

theorem stringifyWalletChars_shape (w : Wallet) :
    stringifyWalletChars w =
      '\x7b' :: '"' :: (('m' :: 'n' :: 'e' :: 'm' :: 'o' :: 'n' :: 'i' :: 'c' :: []) ++
        '"' :: ':' :: '"' :: (escList w.mnemonic.data ++ '"' :: ',' :: '"' ::
          (('p' :: 'r' :: 'i' :: 'v' :: 'a' :: 't' :: 'e' :: 'K' :: 'e' :: 'y' :: []) ++
            '"' :: ':' :: '"' :: (escList w.privateKey.data ++ '"' :: ',' :: '"' ::
              (('p' :: 'u' :: 'b' :: 'l' :: 'i' :: 'c' :: 'K' :: 'e' :: 'y' :: []) ++
                '"' :: ':' :: '"' :: (escList w.publicKey.data ++ '"' :: ',' :: '"' ::
                  (('a' :: 'd' :: 'd' :: 'r' :: 'e' :: 's' :: 's' :: []) ++
                    '"' :: ':' :: '"' :: (escList w.address.data ++ '"' :: ',' :: '"' ::
                      (('w' :: 'i' :: 'f' :: []) ++
                        '"' :: ':' :: '"' :: (escList w.wif.data ++
                          '"' :: '\x7d' :: [])))))))))) := by
  simp only [stringifyWalletChars, memberChars, quoteChars, List.cons_append,
    List.nil_append, List.append_assoc]

theorem parseValue_wallet (n : Nat) (w : Wallet) :
    parseValue (n + 7) (stringifyWalletChars w) = some (walletJson w, []) := by
  rw [stringifyWalletChars_shape]
  rw [show n + 7 = (n + 6) + 1 from rfl, parseValue_obj_q]
  rw [show n + 6 = (n + 4) + 2 from rfl, parseMembers_member (n + 4) _ _ rfl]
  simp only [skipWs_cons ',' _ rfl, skipWs_cons '"' _ rfl]
  rw [show n + 4 + 1 = (n + 3) + 2 from rfl, parseMembers_member (n + 3) _ _ rfl]
  simp only [skipWs_cons ',' _ rfl, skipWs_cons '"' _ rfl]
  rw [show n + 3 + 1 = (n + 2) + 2 from rfl, parseMembers_member (n + 2) _ _ rfl]
  simp only [skipWs_cons ',' _ rfl, skipWs_cons '"' _ rfl]
  rw [show n + 2 + 1 = (n + 1) + 2 from rfl, parseMembers_member (n + 1) _ _ rfl]
  simp only [skipWs_cons ',' _ rfl, skipWs_cons '"' _ rfl]
  rw [show n + 1 + 1 = n + 2 from rfl, parseMembers_member n _ _ rfl]
  simp only [skipWs_cons '\x7d' _ rfl]
  rfl

theorem jsonParse_stringifyWallet (w : Wallet) :
    jsonParse (stringifyWallet w) = some (walletJson w) := by
  unfold jsonParse stringifyWallet
  have hdata : (String.mk (stringifyWalletChars w)).data = stringifyWalletChars w := rfl
  rw [hdata]
  have hsk : skipWs (stringifyWalletChars w) = stringifyWalletChars w := by
    rw [stringifyWalletChars_shape]
    exact skipWs_cons '\x7b' _ rfl
  rw [hsk]
  have hlen : 6 ≤ (stringifyWalletChars w).length := by
    rw [stringifyWalletChars_shape]
    simp [List.length_append]
  have hfuel : (stringifyWalletChars w).length + 1 =
      ((stringifyWalletChars w).length - 6) + 7 := by omega
  rw [hfuel, parseValue_wallet]
  rfl

theorem stringifyWallet_ne_empty (w : Wallet) : stringifyWallet w ≠ "" := by
  intro h
  have : (stringifyWallet w).data = [] := by rw [h]
  rw [stringifyWallet] at this
  have h2 : stringifyWalletChars w = [] := this
  rw [stringifyWalletChars_shape] at h2
  exact List.noConfusion h2

/-! The claims. -/

/-- C1: importWalletFromMnemonic is deterministic - any two calls with
the same mnemonic (in any two worlds) that return Wallet records return
records with identical privateKey, publicKey, address and wif fields. -/
theorem mnemonicImport_deterministic (env : CryptoEnv) (m : String) (w1 w2 : World)
    (wlt1 wlt2 : Wallet)
    (h1 : (importWalletFromMnemonic env m w1).1 = .ok wlt1)
    (h2 : (importWalletFromMnemonic env m w2).1 = .ok wlt2) :
    wlt1.privateKey = wlt2.privateKey ∧ wlt1.publicKey = wlt2.publicKey ∧
      wlt1.address = wlt2.address ∧ wlt1.wif = wlt2.wif := by
  unfold importWalletFromMnemonic at h1 h2
  by_cases hv : validateMnemonic env m
  · simp only [hv, Bool.not_true, Bool.false_eq_true, if_false] at h1 h2
    unfold saveWallet at h1 h2
    cases hw1 : w1.writeFault <;> cases hw2 : w2.writeFault <;>
      simp only [hw1, hw2, if_true, if_false] at h1 h2 <;>
      simp_all
  · simp [hv] at h1

/-- C1 witness: the theorem applied to a concrete environment, mnemonic
and world. -/
theorem mnemonicImport_deterministic_witness :
    Wallet.privateKey ⟨m12c, "17", "17", "17", "17"⟩ =
      Wallet.privateKey ⟨m12c, "17", "17", "17", "17"⟩ ∧
    Wallet.publicKey ⟨m12c, "17", "17", "17", "17"⟩ =
      Wallet.publicKey ⟨m12c, "17", "17", "17", "17"⟩ ∧
    Wallet.address ⟨m12c, "17", "17", "17", "17"⟩ =
      Wallet.address ⟨m12c, "17", "17", "17", "17"⟩ ∧
    Wallet.wif ⟨m12c, "17", "17", "17", "17"⟩ =
      Wallet.wif ⟨m12c, "17", "17", "17", "17"⟩ :=
  mnemonicImport_deterministic testEnv m12c baseWorld baseWorld
    ⟨m12c, "17", "17", "17", "17"⟩ ⟨m12c, "17", "17", "17", "17"⟩ rfl rfl

/-- C2: a mnemonic whose word count is not 12 - including an
otherwise-valid 24-word phrase - fails validation, and the import
fails with the invalid-mnemonic error, leaving the world untouched,
rather than returning a Wallet. -/
theorem mnemonicImport_rejects_wrong_word_count (env : CryptoEnv) (m : String)
    (w : World) (h : (splitWords m).length ≠ 12) :
    validateMnemonic env m = false ∧
      (importWalletFromMnemonic env m w = (.error .invalidMnemonic, w)) := by
  have hv : validateMnemonic env m = false := by
    unfold validateMnemonic
    simp [h]
  exact ⟨hv, by unfold importWalletFromMnemonic; simp [hv]⟩

/-- C2 witness: a 24-word phrase all of whose words the environment
accepts is still rejected. -/
theorem mnemonicImport_rejects_wrong_word_count_witness :
    validateMnemonic testEnv m24c = false ∧
      (importWalletFromMnemonic testEnv m24c baseWorld =
        (.error .invalidMnemonic, baseWorld)) :=
  mnemonicImport_rejects_wrong_word_count testEnv m24c baseWorld (by decide)

/-- C5: generateWallet and importWalletFromMnemonic are atomic with
respect to storage: the Wallet is assembled fully in memory and the only
write ever issued stores the serialization of the complete returned
record; when the operation fails the previously stored record is
unchanged. -/
theorem creation_atomic (env : CryptoEnv) (m : String) (w : World) :
    atomicOutcome w (generateWallet env w) ∧
      atomicOutcome w (importWalletFromMnemonic env m w) := by
  constructor
  · unfold generateWallet saveWallet atomicOutcome
    cases hw : w.writeFault <;> simp [hw]
  · unfold importWalletFromMnemonic saveWallet atomicOutcome
    by_cases hv : validateMnemonic env m <;>
      cases hw : w.writeFault <;> simp [hv, hw]

/-- C5 witness: the atomicity outcomes at a concrete environment and
world. -/
theorem creation_atomic_witness :
    atomicOutcome baseWorld (generateWallet testEnv baseWorld) ∧
      atomicOutcome baseWorld (importWalletFromMnemonic testEnv m12c baseWorld) :=
  creation_atomic testEnv m12c baseWorld

/-- C6: when the persistence write fails, the error of saveWallet
propagates: generateWallet fails with the storage write error, and so
does importWalletFromMnemonic whenever its mnemonic passes validation
(an invalid mnemonic already failed earlier); neither returns a
Wallet. -/
theorem write_failure_propagates (env : CryptoEnv) (m : String) (w : World)
    (hw : w.writeFault = true) :
    (generateWallet env w).1 = .error (.storage .writeError) ∧
      (validateMnemonic env m = true →
        (importWalletFromMnemonic env m w).1 = .error (.storage .writeError)) := by
  constructor
  · unfold generateWallet saveWallet
    simp [hw]
  · intro hv
    unfold importWalletFromMnemonic saveWallet
    simp [hv, hw]

/-- C6 witness: the theorem applied to a concrete faulty world. -/
theorem write_failure_propagates_witness :
    (generateWallet testEnv ⟨none, m12c, true, false, false⟩).1 =
        .error (.storage .writeError) ∧
      (validateMnemonic testEnv m12c = true →
        (importWalletFromMnemonic testEnv m12c
          ⟨none, m12c, true, false, false⟩).1 =
            .error (.storage .writeError)) :=
  write_failure_propagates testEnv m12c ⟨none, m12c, true, false, false⟩ rfl

/-- C8: after a successful deleteWallet, loadWallet returns absent
whatever the prior storage state was; and deleteWallet on an
already-absent key succeeds as a no-op rather than raising. -/
theorem delete_then_load_absent (w : World) :
    ((deleteWallet w).1 = .ok () →
      loadWallet (deleteWallet w).2 = Json.null) ∧
    (w.slot = none → w.removeFault = false →
      (deleteWallet w).1 = .ok () ∧ (deleteWallet w).2.slot = none) := by
  constructor
  · intro h
    unfold deleteWallet at h ⊢
    cases hr : w.removeFault
    · simp only [hr, Bool.false_eq_true, if_false]
      unfold loadWallet
      cases hrf : w.readFault <;> simp [hrf]
    · simp [hr] at h
  · intro hs hr
    unfold deleteWallet
    simp [hr, hs]

/-- C8 witness: the theorem applied to a world holding a record. -/
theorem delete_then_load_absent_witness :
    loadWallet (deleteWallet ⟨some ("zzz"), "", false, false, false⟩).2 =
        Json.null ∧
      (deleteWallet ⟨none, "", false, false, false⟩).1 = .ok () ∧
        (deleteWallet ⟨none, "", false, false, false⟩).2.slot = none :=
  ⟨(delete_then_load_absent ⟨some ("zzz"), "", false, false, false⟩).1 rfl,
    (delete_then_load_absent ⟨none, "", false, false, false⟩).2 rfl rfl⟩

/-- C10: generateWallet and importWalletFromMnemonic run the identical
derivation pipeline: for any wallet returned by generateWallet, a
re-import of its mnemonic (whenever it validates and the write goes
through) returns a Wallet with the same privateKey, publicKey, address
and wif. -/
theorem generate_import_same_pipeline (env : CryptoEnv) (w1 : World)
    (wlt : Wallet) (h : (generateWallet env w1).1 = .ok wlt) (w2 : World)
    (hv : validateMnemonic env wlt.mnemonic = true)
    (hw : w2.writeFault = false) :
    ∃ wlt2, (importWalletFromMnemonic env wlt.mnemonic w2).1 = .ok wlt2 ∧
      wlt2.privateKey = wlt.privateKey ∧ wlt2.publicKey = wlt.publicKey ∧
      wlt2.address = wlt.address ∧ wlt2.wif = wlt.wif := by
  unfold generateWallet saveWallet at h
  cases hw1 : w1.writeFault
  · simp only [hw1, Bool.false_eq_true, if_false] at h
    simp only [Except.ok.injEq] at h
    subst h
    unfold importWalletFromMnemonic saveWallet
    simp [hv, hw]
  · simp [hw1] at h

/-- C10 witness: the theorem applied to a concrete environment and a
fault-free world. -/
theorem generate_import_same_pipeline_witness :
    ∃ wlt2,
      (importWalletFromMnemonic testEnv
        (Wallet.mnemonic ⟨m12c, "17", "17", "17", "17"⟩) baseWorld).1 =
          .ok wlt2 ∧
      wlt2.privateKey = Wallet.privateKey ⟨m12c, "17", "17", "17", "17"⟩ ∧
      wlt2.publicKey = Wallet.publicKey ⟨m12c, "17", "17", "17", "17"⟩ ∧
      wlt2.address = Wallet.address ⟨m12c, "17", "17", "17", "17"⟩ ∧
      wlt2.wif = Wallet.wif ⟨m12c, "17", "17", "17", "17"⟩ :=
  generate_import_same_pipeline testEnv ⟨none, m12c, false, false, false⟩
    ⟨m12c, "17", "17", "17", "17"⟩ rfl baseWorld rfl rfl

/-- C4 counterexample: a stored value that parses as JSON but is not a
Wallet record is returned as-is by loadWallet, not as null - the source
performs no schema validation on the parsed value. -/
theorem loadWallet_no_schema_check :
    loadWallet ⟨some ("true"), "", false, false, false⟩ = Json.bool true ∧
      decodeWallet (Json.bool true) = none ∧ Json.bool true ≠ Json.null :=
  ⟨rfl, rfl, fun h => Json.noConfusion h⟩

/-- C4 amended: loadWallet never raises; it returns null when the
storage read fails, when the key is absent, and when the stored value is
empty or fails to parse as JSON; a stored value that does parse is
returned as-is, without validation that it is a Wallet record. -/
theorem loadWallet_degrades (w : World) :
    (w.readFault = true → loadWallet w = Json.null) ∧
    (w.slot = none → loadWallet w = Json.null) ∧
    (∀ s, w.slot = some s → jsonParse s = none → loadWallet w = Json.null) ∧
    (∀ s v, w.slot = some s → s ≠ "" → jsonParse s = some v →
      w.readFault = false → loadWallet w = v) := by
  refine ⟨fun hr => ?_, fun hs => ?_, fun s hs hp => ?_, fun s v hs hne hp hr => ?_⟩
  · unfold loadWallet
    simp [hr]
  · unfold loadWallet
    cases hr : w.readFault <;> simp [hr, hs]
  · unfold loadWallet
    cases hr : w.readFault <;> simp [hr, hs, hp]
  · unfold loadWallet
    simp [hr, hs, hne, hp]

/-- C4 witness for the amended theorem: each degrade-to-null clause and
the pass-through clause at concrete worlds. -/
theorem loadWallet_degrades_witness :
    loadWallet ⟨some ("x"), "", false, true, false⟩ = Json.null ∧
      loadWallet baseWorld = Json.null ∧
      loadWallet ⟨some ("x"), "", false, false, false⟩ = Json.null ∧
      loadWallet ⟨some ("true"), "x", false, false, false⟩ = Json.bool true :=
  ⟨(loadWallet_degrades _).1 rfl, (loadWallet_degrades _).2.1 rfl,
    (loadWallet_degrades _).2.2.1 ("x") rfl rfl,
    (loadWallet_degrades _).2.2.2 ("true") (Json.bool true) rfl
      (by decide) rfl rfl⟩

/-- C3 counterexample: a well-formed JSON payload lacking a balance
field makes getWalletBalance return NaN (undefined / 100000000), not 0,
under an ok response - the claimed return of exactly 0 fails there. -/
theorem getWalletBalance_missing_field_nan :
    getWalletBalance ("addr") (.response true ("\x7b\x7d")) = JsNumber.nan ∧
      JsNumber.nan ≠ JsNumber.ofRat 0 :=
  ⟨rfl, fun h => JsNumber.noConfusion h⟩

/-- C3 amended: getWalletBalance never raises; it returns 0 on a
transport error, a non-2xx response, an unparseable body and a body
parsing to JSON null; on an object body with a numeric balance field it
returns balance / 100000000; but on an object body without a balance
field it returns NaN, not 0. -/
theorem getWalletBalance_fail_soft (a : String) (r : FetchOutcome) :
    (r = .netError → getWalletBalance a r = .ofRat 0) ∧
    (∀ b, r = .response false b → getWalletBalance a r = .ofRat 0) ∧
    (∀ b, r = .response true b → jsonParse b = none →
      getWalletBalance a r = .ofRat 0) ∧
    (∀ b, r = .response true b → jsonParse b = some Json.null →
      getWalletBalance a r = .ofRat 0) ∧
    (∀ b fs q, r = .response true b → jsonParse b = some (Json.obj fs) →
      lastAssoc fs ("balance") = some (Json.num q) →
      getWalletBalance a r = .ofRat (q / 100000000)) ∧
    (∀ b fs, r = .response true b → jsonParse b = some (Json.obj fs) →
      lastAssoc fs ("balance") = none →
      getWalletBalance a r = JsNumber.nan) := by
  refine ⟨fun h => ?_, fun b h => ?_, fun b h hp => ?_, fun b h hp => ?_,
    fun b fs q h hp hf => ?_, fun b fs h hp hf => ?_⟩
  · subst h; rfl
  · subst h; rfl
  · subst h
    unfold getWalletBalance
    simp [hp]
  · subst h
    unfold getWalletBalance
    simp [hp, jsGetField]
  · subst h
    unfold getWalletBalance
    simp only [hp, Bool.not_true, Bool.false_eq_true, if_false]
    simp only [jsGetField, hf]
    unfold toNumber jsonToNumber JsNumber.div
    have h8 : (100000000 : ℚ) ≠ 0 := by norm_num
    simp [h8]
  · subst h
    unfold getWalletBalance
    simp only [hp, Bool.not_true, Bool.false_eq_true, if_false]
    simp [jsGetField, hf, toNumber, JsNumber.div]

/-- C3 witness for the amended theorem: the degrade-to-zero clauses and
the NaN clause at concrete responses. -/
theorem getWalletBalance_fail_soft_witness :
    getWalletBalance ("a") FetchOutcome.netError = .ofRat 0 ∧
      getWalletBalance ("a") (.response false ("x")) = .ofRat 0 ∧
      getWalletBalance ("a") (.response true ("x")) = .ofRat 0 ∧
      getWalletBalance ("a") (.response true ("null")) = .ofRat 0 ∧
      getWalletBalance ("a") (.response true ("\x7b\"a\":null\x7d")) =
        JsNumber.nan :=
  ⟨(getWalletBalance_fail_soft ("a") FetchOutcome.netError).1 rfl,
    (getWalletBalance_fail_soft ("a") (.response false ("x"))).2.1 ("x") rfl,
    (getWalletBalance_fail_soft ("a") (.response true ("x"))).2.2.1
      ("x") rfl rfl,
    (getWalletBalance_fail_soft ("a") (.response true ("null"))).2.2.2.1
      ("null") rfl rfl,
    (getWalletBalance_fail_soft ("a")
        (.response true ("\x7b\"a\":null\x7d"))).2.2.2.2.2
      ("\x7b\"a\":null\x7d") [(("a"), Json.null)] rfl rfl rfl⟩

/-- C7 counterexample: the source puts limit=10 only in the request URL
and never caps the response client-side - a payload whose txs array has
eleven entries is returned whole, so the returned sequence is not capped
at 10. -/
theorem getTransactionHistory_uncapped :
    getTransactionHistory ("addr") (.response true elevenTxBody) =
        Json.arr (List.replicate 11 Json.null) ∧
      10 < (List.replicate 11 Json.null).length :=
  ⟨rfl, by decide⟩

/-- C7 amended: getTransactionHistory never raises; it returns the empty
array on a transport error, a non-2xx response, an unparseable body, a
body parsing to JSON null, an absent txs field and a falsy txs value;
otherwise it returns the txs value as-is - uncapped and in server order,
the 10-item cap being requested from the server via the limit=10 query
parameter only. -/
theorem getTransactionHistory_fail_soft (a : String) (r : FetchOutcome) :
    (r = .netError → getTransactionHistory a r = .arr []) ∧
    (∀ b, r = .response false b → getTransactionHistory a r = .arr []) ∧
    (∀ b, r = .response true b → jsonParse b = none →
      getTransactionHistory a r = .arr []) ∧
    (∀ b, r = .response true b → jsonParse b = some Json.null →
      getTransactionHistory a r = .arr []) ∧
    (∀ b fs, r = .response true b → jsonParse b = some (Json.obj fs) →
      lastAssoc fs ("txs") = none →
      getTransactionHistory a r = .arr []) ∧
    (∀ b fs v, r = .response true b → jsonParse b = some (Json.obj fs) →
      lastAssoc fs ("txs") = some v → jsTruthy v = false →
      getTransactionHistory a r = .arr []) ∧
    (∀ b fs v, r = .response true b → jsonParse b = some (Json.obj fs) →
      lastAssoc fs ("txs") = some v → jsTruthy v = true →
      getTransactionHistory a r = v) := by
  refine ⟨fun h => ?_, fun b h => ?_, fun b h hp => ?_, fun b h hp => ?_,
    fun b fs h hp hf => ?_, fun b fs v h hp hf ht => ?_,
    fun b fs v h hp hf ht => ?_⟩
  · subst h; rfl
  · subst h; rfl
  · subst h
    unfold getTransactionHistory
    simp [hp]
  · subst h
    unfold getTransactionHistory
    simp [hp, jsGetField]
  · subst h
    unfold getTransactionHistory
    simp [hp, jsGetField, hf]
  · subst h
    unfold getTransactionHistory
    simp [hp, jsGetField, hf, ht]
  · subst h
    unfold getTransactionHistory
    simp [hp, jsGetField, hf, ht]

/-- C7 witness for the amended theorem: each clause at a concrete
response. -/
theorem getTransactionHistory_fail_soft_witness :
    getTransactionHistory ("a") FetchOutcome.netError = Json.arr [] ∧
      getTransactionHistory ("a") (.response false ("x")) = Json.arr [] ∧
      getTransactionHistory ("a") (.response true ("x")) = Json.arr [] ∧
      getTransactionHistory ("a") (.response true ("null")) = Json.arr [] ∧
      getTransactionHistory ("a") (.response true ("\x7b\"a\":null\x7d")) =
        Json.arr [] ∧
      getTransactionHistory ("a") (.response true ("\x7b\"txs\":null\x7d")) =
        Json.arr [] ∧
      getTransactionHistory ("a")
          (.response true ("\x7b\"txs\":[null]\x7d")) =
        Json.arr [Json.null] :=
  ⟨(getTransactionHistory_fail_soft ("a") FetchOutcome.netError).1 rfl,
    (getTransactionHistory_fail_soft ("a") (.response false ("x"))).2.1
      ("x") rfl,
    (getTransactionHistory_fail_soft ("a") (.response true ("x"))).2.2.1
      ("x") rfl rfl,
    (getTransactionHistory_fail_soft ("a") (.response true ("null"))).2.2.2.1
      ("null") rfl rfl,
    (getTransactionHistory_fail_soft ("a")
        (.response true ("\x7b\"a\":null\x7d"))).2.2.2.2.1
      ("\x7b\"a\":null\x7d") [(("a"), Json.null)] rfl rfl rfl,
    (getTransactionHistory_fail_soft ("a")
        (.response true ("\x7b\"txs\":null\x7d"))).2.2.2.2.2.1
      ("\x7b\"txs\":null\x7d") [(("txs"), Json.null)] Json.null rfl rfl rfl
      rfl,
    (getTransactionHistory_fail_soft ("a")
        (.response true ("\x7b\"txs\":[null]\x7d"))).2.2.2.2.2.2
      ("\x7b\"txs\":[null]\x7d") [(("txs"), Json.arr [Json.null])]
      (Json.arr [Json.null]) rfl rfl rfl rfl⟩

/-- C9: saveWallet followed by loadWallet is lossless: the save
succeeds, the loaded value is exactly the JSON object carrying the five
fields of the saved Wallet, and that object decodes field-for-field to
the original Wallet. -/
theorem save_then_load_roundtrip (wlt : Wallet) (w : World)
    (hw : w.writeFault = false) (hr : w.readFault = false) :
    (saveWallet wlt w).1 = .ok () ∧
      loadWallet (saveWallet wlt w).2 = walletJson wlt ∧
      decodeWallet (walletJson wlt) = some wlt := by
  refine ⟨?_, ?_, ?_⟩
  · unfold saveWallet
    simp [hw]
  · unfold saveWallet loadWallet
    simp only [hw, Bool.false_eq_true, if_false, hr]
    simp [stringifyWallet_ne_empty wlt, jsonParse_stringifyWallet wlt]
  · rfl

/-- C9 witness: the round trip at a concrete Wallet and world. -/
theorem save_then_load_roundtrip_witness :
    (saveWallet ⟨"m", "p", "q", "a", "w"⟩ baseWorld).1 = .ok () ∧
      loadWallet (saveWallet ⟨"m", "p", "q", "a", "w"⟩ baseWorld).2 =
        walletJson ⟨"m", "p", "q", "a", "w"⟩ ∧
      decodeWallet (walletJson ⟨"m", "p", "q", "a", "w"⟩) =
        some ⟨"m", "p", "q", "a", "w"⟩ :=
  save_then_load_roundtrip ⟨"m", "p", "q", "a", "w"⟩ baseWorld rfl rfl
end WalletService
